import Mathlib

/-!
Shallow embedding of the cloudzip repository's core:
  * `pkg/remote/s3.go` — the S3 range downloader (range expression
    construction, not-found error mapping, per-bucket service cache,
    lock discipline of route resolution);
  * the WebDAV filesystem adapter (`davFS`);
  * the `mount-server` command's control flow (callback protocol,
    listener binding, index build, protocol dispatch, deferred cache
    removal).

Go `int64` offsets are modelled as `Int` (the code only compares them
with 0 and prints them; no overflowing arithmetic occurs). Fallible Go
calls return `Except`; external network/OS calls are oracles supplied
as explicit arguments, so each code path is a pure function of the
oracle outcomes.
-/

namespace Remote

/-- Structured form of the S3 byte-range expression built by
`buildRange` (s3.go): both bounds, start only, or suffix (last `n`
bytes). -/
inductive RangeExpr where
  | bounded (start stop : Int)
  | fromStart (start : Int)
  | suffixLen (stop : Int)
deriving Repr, DecidableEq

/-- Rendering of a `RangeExpr` to the header string produced by the
`fmt.Sprintf` calls in `buildRange` (s3.go lines 40, 42, 44). -/
def renderRange : RangeExpr → String
  | .bounded s e => "bytes=" ++ toString s ++ "-" ++ toString e
  | .fromStart s => "bytes=" ++ toString s ++ "-"
  | .suffixLen e => "bytes=-" ++ toString e

/-- Embeds `buildRange` (s3.go lines 38-47), keeping the branch
structure: both offsets non-zero, then start non-zero, then end
non-zero, else `nil`. -/
def buildRangeExpr (offsetStart offsetEnd : Int) : Option RangeExpr :=
  if offsetStart ≠ 0 ∧ offsetEnd ≠ 0 then
    some (.bounded offsetStart offsetEnd)
  else if offsetStart ≠ 0 then
    some (.fromStart offsetStart)
  else if offsetEnd ≠ 0 then
    some (.suffixLen offsetEnd)
  else
    none

/-- `buildRange` as the source writes it: the rendered header string,
`none` standing for Go's `nil` (no `Range` header sent). -/
def buildRange (offsetStart offsetEnd : Int) : Option String :=
  (buildRangeExpr offsetStart offsetEnd).map renderRange

/-- Go error values as seen by the downloader: an error implementing
`awserr.Error` (carrying a code string), any other error value, or the
package sentinel `remote.ErrDoesNotExist`. -/
inductive GoError where
  | awsError (code : String) (msg : String)
  | plain (msg : String)
  | errDoesNotExist
deriving Repr, DecidableEq

/-- The AWS SDK constant `s3.ErrCodeNoSuchBucket`. -/
def errCodeNoSuchBucket : String := "NoSuchBucket"

/-- The AWS SDK constant `s3.ErrCodeNoSuchKey`. -/
def errCodeNoSuchKey : String := "NoSuchKey"

/-- Embeds `s3IsNotFoundErr` (s3.go lines 67-78): `nil` is not
not-found; an `awserr.Error` is not-found exactly when its code is
`NoSuchBucket` or `NoSuchKey`; every other error is not not-found. -/
def s3IsNotFoundErr : Option GoError → Bool
  | some (.awsError code _) =>
      code == errCodeNoSuchBucket || code == errCodeNoSuchKey
  | _ => false

/-- Embeds `s3ParsedUri` (s3.go lines 19-22). -/
structure S3ParsedUri where
  Bucket : String
  Path : String
deriving Repr, DecidableEq

/-- An S3 client, identified by the region its config was built with
(`s3.New(sess, aws.NewConfig().WithRegion(region))`). -/
structure S3Client where
  region : String
deriving Repr, DecidableEq

/-- The constant `defaultRegion` in `getServiceForBucket` (s3.go line
55). -/
def defaultRegion : String := "us-east-1"

/-- Outcomes of the external calls a `Download` / `SizeOf` invocation
performs, in program order: `parseUri`, `getServiceForBucket`,
`GetObjectWithContext` (a function of the `Range` header passed), and
`HeadObjectWithContext` (returning the `ContentLength` pointer). -/
structure S3CallOutcomes where
  parseOutcome : Except GoError S3ParsedUri
  serviceOutcome : Except GoError S3Client
  getObjectOutcome : Option String → Except GoError (List Nat)
  headObjectOutcome : Except GoError (Option Int)

/-- Embeds `S3Downloader.Download` (s3.go lines 91-115): parse the
URI, resolve the service, build the range, call GetObject; a not-found
backend error becomes `ErrDoesNotExist`, any other error propagates,
otherwise the body is returned. -/
def S3Downloader.Download (env : S3CallOutcomes)
    (offsetStart offsetEnd : Int) : Except GoError (List Nat) :=
  match env.parseOutcome with
  | .error e => .error e
  | .ok _ =>
    match env.serviceOutcome with
    | .error e => .error e
    | .ok _ =>
      let rng := buildRange offsetStart offsetEnd
      match env.getObjectOutcome rng with
      | .error e =>
          if s3IsNotFoundErr (some e) then .error .errDoesNotExist
          else .error e
      | .ok body => .ok body

/-- Embeds `S3Downloader.SizeOf` (s3.go lines 117-138): parse the URI,
resolve the service, call HeadObject; a not-found backend error
becomes `ErrDoesNotExist`, any other error propagates, otherwise
`aws.Int64Value(out.ContentLength)` (0 when the pointer is nil) is
returned. -/
def S3Downloader.SizeOf (env : S3CallOutcomes) : Except GoError Int :=
  match env.parseOutcome with
  | .error e => .error e
  | .ok _ =>
    match env.serviceOutcome with
    | .error e => .error e
    | .ok _ =>
      match env.headObjectOutcome with
      | .error e =>
          if s3IsNotFoundErr (some e) then .error .errDoesNotExist
          else .error e
      | .ok contentLength => .ok (contentLength.getD 0)

/-- The `serviceCache` map of `S3Downloader`, bucket → client,
modelled as an association list (newest binding first, as a Go map
insert). -/
abbrev ServiceCache := List (String × S3Client)

/-- Embeds the state transformation of `getServiceForBucket` (s3.go
lines 49-65): under the cache lock, return a cached client if
present; otherwise resolve the bucket region with a provisional
default-region client (`s3manager.GetBucketRegionWithClient`),
returning the resolution error as-is without touching the cache, and
on success build a client for the resolved region, cache it and
return it. `resolveRegion` is the oracle for the network call. -/
def getServiceForBucket
    (resolveRegion : S3Client → String → Except GoError String)
    (cache : ServiceCache) (bucket : String) :
    Except GoError S3Client × ServiceCache :=
  match cache.lookup bucket with
  | some svc => (.ok svc, cache)
  | none =>
    match resolveRegion ⟨defaultRegion⟩ bucket with
    | .error e => (.error e, cache)
    | .ok region => (.ok ⟨region⟩, (bucket, ⟨region⟩) :: cache)

/-- Invariant of the service cache: every cached client was built from
a successfully resolved region for its bucket. -/
def cacheResolved
    (resolveRegion : S3Client → String → Except GoError String)
    (cache : ServiceCache) : Prop :=
  ∀ b svc, (b, svc) ∈ cache →
    resolveRegion ⟨defaultRegion⟩ b = .ok svc.region

/-- The lock-relevant atomic steps of `getServiceForBucket`:
`d.lock.Lock()`, the cache map read, the
`s3manager.GetBucketRegionWithClient` network call, the cache map
write, and the deferred `d.lock.Unlock()`. -/
inductive LockAction where
  | lockAcquire
  | cacheLookup
  | networkCall
  | cacheInsert
  | lockRelease
deriving Repr, DecidableEq

/-- The straight-line action sequence of one `getServiceForBucket`
call (s3.go lines 49-65): the lock is taken on entry and released by
`defer` on every return path; on a cache miss the region lookup
network call runs, and on resolution success the cache is written. -/
def getServiceForBucketActions (cacheHit resolveOk : Bool) :
    List LockAction :=
  .lockAcquire :: .cacheLookup ::
    (if cacheHit then [.lockRelease]
     else .networkCall ::
       (if resolveOk then [.cacheInsert, .lockRelease]
        else [.lockRelease]))

/-- True when every `networkCall` in the action list executes with no
lock held (`d` counts currently held acquisitions). -/
def networkOutsideFrom : List LockAction → Nat → Bool
  | [], _ => true
  | .lockAcquire :: r, d => networkOutsideFrom r (d + 1)
  | .lockRelease :: r, d => networkOutsideFrom r (d - 1)
  | .networkCall :: r, d => (d == 0) && networkOutsideFrom r d
  | _ :: r, d => networkOutsideFrom r d

/-- True when every `networkCall` in the action list executes with the
lock held. -/
def networkUnderFrom : List LockAction → Nat → Bool
  | [], _ => true
  | .lockAcquire :: r, d => networkUnderFrom r (d + 1)
  | .lockRelease :: r, d => networkUnderFrom r (d - 1)
  | .networkCall :: r, d => decide (0 < d) && networkUnderFrom r d
  | _ :: r, d => networkUnderFrom r d

/-- Every network call of the action sequence happens outside the
route-cache lock. -/
def networkCallsOutsideLock (acts : List LockAction) : Bool :=
  networkOutsideFrom acts 0

/-- Every network call of the action sequence happens while the
route-cache lock is held. -/
def networkCallsUnderLock (acts : List LockAction) : Bool :=
  networkUnderFrom acts 0

end Remote

namespace Dav

/-- Go error values surfaced by the WebDAV adapter. `errInvalid` is
`os.ErrInvalid`, `errPermission` is the permission error
(`os.ErrPermission` / `EPERM`), `errNotExist` is `os.ErrNotExist`. -/
inductive FsError where
  | errInvalid
  | errPermission
  | errNotExist
  | other (msg : String)
deriving Repr, DecidableEq

/-- The Go error message of each modelled error value
(`os.ErrInvalid.Error()` is "invalid argument"; the permission
condition reads "operation not permitted"). -/
def FsError.goMessage : FsError → String
  | .errInvalid => "invalid argument"
  | .errPermission => "operation not permitted"
  | .errNotExist => "file does not exist"
  | .other m => m

/-- The `os.FileInfo` data an archive entry carries: name/path, size,
modification time (seconds), directory flag. -/
structure FileInfo where
  name : String
  size : Int
  modTime : Int
  isDir : Bool
deriving Repr, DecidableEq

/-- The `index.Tree` interface as the dav adapter consumes it: `Stat`
resolves a path to a file info, `Open` yields the entry's content
stream. -/
structure Tree where
  Stat : String → Except FsError FileInfo
  Open : String → Except FsError (List Nat)

/-- The `treeFile` value `davFS.OpenFile` constructs: the tree plus
the stat result (`fi`) for the opened path. -/
structure treeFile where
  tree : Tree
  fi : FileInfo

/-- Modelled from the spec: the `treeFile` method set is in a file of
this repository missing from src/. Per the spec the returned handle
must "report size/modtime from the ArchiveEntry for protocol metadata
responses", so its `Stat` returns the stored file info unchanged. -/
def treeFile.statInfo (f : treeFile) : FileInfo := f.fi

/-- Modelled from the spec: the `treeFile` method set is in a file of
this repository missing from src/. Per the spec the handle must
"support seeking/streaming reads" whose content comes from `Tree.Open`
on the opened entry, so its read path delegates to `Tree.Open`. -/
def treeFile.readContent (f : treeFile) : Except FsError (List Nat) :=
  f.tree.Open f.fi.name

/-- Embeds `davFS` (dav adapter source): it holds only the tree. -/
structure davFS where
  tree : Tree

/-- Embeds `davFS.Mkdir`: `return os.ErrInvalid`, unconditionally. The
receiver is returned unchanged — the body touches neither the tree nor
any cache. -/
def davFS.Mkdir (fs : davFS) (name : String) (perm : Nat) :
    Option FsError × davFS :=
  (some .errInvalid, fs)

/-- Embeds `davFS.RemoveAll`: `return os.ErrInvalid`,
unconditionally, with the receiver unchanged. -/
def davFS.RemoveAll (fs : davFS) (name : String) :
    Option FsError × davFS :=
  (some .errInvalid, fs)

/-- Embeds `davFS.Rename`: `return os.ErrInvalid`, unconditionally,
with the receiver unchanged. -/
def davFS.Rename (fs : davFS) (oldName newName : String) :
    Option FsError × davFS :=
  (some .errInvalid, fs)

/-- Embeds `davFS.OpenFile`: `fs.tree.Stat(name)`; on error the error
is returned, otherwise a `treeFile` holding the tree and the stat
result. The `flag` and `perm` arguments are ignored by the body. -/
def davFS.OpenFile (fs : davFS) (name : String) (flag : Nat)
    (perm : Nat) : Except FsError treeFile :=
  match fs.tree.Stat name with
  | .error e => .error e
  | .ok f => .ok ⟨fs.tree, f⟩

/-- Embeds `davFS.Stat`: delegate to `fs.tree.Stat(name)`. -/
def davFS.Stat (fs : davFS) (name : String) : Except FsError FileInfo :=
  fs.tree.Stat name

/-- Go open flags request read access when the access mode
(`flag & O_ACCMODE`, low two bits) is `O_RDONLY` (0) or `O_RDWR` (2),
i.e. not `O_WRONLY` (1). -/
def requestsRead (flag : Nat) : Bool :=
  flag &&& 3 == 0 || flag &&& 3 == 2

end Dav

namespace Cmd

/-- The `mountServerStatus` values of the callback protocol. Modelled
from the spec: the constant definitions are in a file of this
repository missing from src/; the spec fixes "a fixed small set
(success, error)". -/
inductive MountServerStatus where
  | success
  | error
deriving Repr, DecidableEq

/-- Modelled from the spec: the concrete status strings
(`mountServerStatusSuccess` / `mountServerStatusError`) are in a file
missing from src/; only their membership in the fixed set
{success, error} and their distinctness matter here. -/
def statusString : MountServerStatus → String
  | .success => "success"
  | .error => "error"

/-- The one line `sendCallback` writes:
`fmt.Fprintf(conn, "%s=%s\n", className, msg)`. -/
def sendCallbackLine (className msg : String) : String :=
  className ++ "=" ++ msg ++ "\n"

/-- Observable events of one `mount-server` run. A `callbackConn`
event is one complete callback delivery: the TCP connection is dialed,
the given line written, and the connection closed (`sendCallback`,
part_001 lines 36-46). -/
inductive MsEvent where
  | callbackConn (line : String)
  | listenerBound (addr : String)
  | treeBuildStart
  | treeBuildOk
  | adapterStarted (protocol : String)
  | serving
  | cacheDirRemoved
  | processExit (ok : Bool)
deriving Repr, DecidableEq

/-- Embeds `sendCallback` (part_001 lines 36-46) against a delivery
oracle: when the dial and write succeed, exactly one line is delivered
(`true`); otherwise nothing observable happens and an error is
returned (`false`). -/
def sendCallback (deliveryOk : Bool) (status : MountServerStatus)
    (msg : String) : List MsEvent × Bool :=
  if deliveryOk then
    ([.callbackConn (sendCallbackLine (statusString status) msg)], true)
  else
    ([], false)

/-- Embeds `dieWithCallback` (part_001 lines 24-34): send one error
callback when a callback address is configured, then `die`. `die` is
modelled from the spec ("reported via the callback channel if present,
then the process exits non-zero"): it terminates the process, so no
deferred function runs after it and the trace ends. -/
def dieWithCallback (deliveryOk : Bool) (toAddr errMessage : String) :
    List MsEvent :=
  (if toAddr ≠ "" then (sendCallback deliveryOk .error errMessage).1
   else []) ++ [.processExit false]

/-- The flag values `mountServerCmd.Run` reads (part_001 lines
74-94). -/
structure MsConfig where
  remoteFile : String
  cacheDirFlag : String
  listenAddr : String
  callbackAddr : String
  logFile : String
  protocol : String
deriving Repr, DecidableEq

/-- Oracle outcomes for the external calls `mountServerCmd.Run`
performs: log file open, the cache-dir environment variable, the
generated cache path, `isDir`, `os.MkdirAll`, `net.Listen` (bound
address on success), `mount.BuildZipTree`, callback TCP delivery,
`os.RemoveAll` of the auto-generated cache dir, and the background
adapter serve loop (`nfs.Serve` / `dav.Serve`). -/
structure MsEnv where
  logOpenOk : Bool
  envCacheDir : String
  autoCacheDir : String
  isDirOutcome : Except String Bool
  mkdirOk : Bool
  listenOutcome : Except String String
  buildOk : Bool
  buildErrMsg : String
  callbackDeliveryOk : Bool
  removeOk : Bool
  serveOk : Bool
  serveErrMsg : String
deriving Repr

/-- The deferred tail of a normal return from `Run` (part_001 lines
118-126): when the cache dir was auto-generated, `os.RemoveAll` runs;
on removal failure `dieWithCallback` sends a further error callback.
Otherwise the process exits cleanly. -/
def runShutdown (cfg : MsConfig) (env : MsEnv) (auto : Bool) :
    List MsEvent :=
  if auto then
    if env.removeOk then [.cacheDirRemoved, .processExit true]
    else dieWithCallback env.callbackDeliveryOk cfg.callbackAddr
      ("could not clear cache dir at " ++ env.autoCacheDir)
  else [.processExit true]

/-- The serving phase (part_001 lines 166-182 and 198): the adapter
goroutine serves in the background while the main flow blocks on
`ctx.Done()`. When the serve loop fails (`nfs.Serve` / `dav.Serve`
returning an error), the goroutine itself calls `dieWithCallback` —
one further error callback, then the exit, which skips the deferred
removal. Otherwise the run ends by cancellation and the deferred
shutdown runs. The goroutine is concurrent; this trace linearizes its
failure after the success report and the serving mark, the
interleaving in which the serve loop outlives startup. -/
def runServe (cfg : MsConfig) (env : MsEnv) (auto : Bool)
    (serverName boundAddr : String) : List MsEvent :=
  if env.serveOk then .serving :: runShutdown cfg env auto
  else .serving :: dieWithCallback env.callbackDeliveryOk cfg.callbackAddr
    ("could not serve " ++ serverName ++ " server on listener: " ++
      boundAddr ++ ": " ++ env.serveErrMsg)

/-- Run from the adapter start onwards (part_001 lines 188-199): send
the success callback with the bound address when a callback address is
configured (`die` on send failure), then the serving phase. -/
def runAfterStart (cfg : MsConfig) (env : MsEnv) (auto : Bool)
    (serverName boundAddr : String) : List MsEvent :=
  if cfg.callbackAddr ≠ "" then
    match sendCallback env.callbackDeliveryOk .success boundAddr with
    | (evs, true) => evs ++ runServe cfg env auto serverName boundAddr
    | (evs, false) => evs ++ [.processExit false]
  else runServe cfg env auto serverName boundAddr

/-- The protocol dispatch (part_001 lines 161-186): start the NFS or
WebDAV adapter in the background (its serve-failure path is carried by
`runServe` with the server name of the matching format string), or
`dieWithCallback` on any other protocol value. -/
def runDispatch (cfg : MsConfig) (env : MsEnv) (auto : Bool)
    (boundAddr : String) : List MsEvent :=
  if cfg.protocol = "nfs" then
    .adapterStarted "nfs" :: runAfterStart cfg env auto "NFS" boundAddr
  else if cfg.protocol = "webdav" then
    .adapterStarted "webdav" ::
      runAfterStart cfg env auto "WebDav" boundAddr
  else
    dieWithCallback env.callbackDeliveryOk cfg.callbackAddr
      ("unknown protocol: " ++ cfg.protocol ++
        ". Supported types are nfs and webdav")

/-- Listener bind and index build (part_001 lines 139-155): the
listener is bound first, then `BuildZipTree` runs synchronously; a
build failure dies (with callback) before any adapter is started. -/
def runFromBuild (cfg : MsConfig) (env : MsEnv) (auto : Bool)
    (boundAddr : String) : List MsEvent :=
  .listenerBound boundAddr :: .treeBuildStart ::
    (if env.buildOk then .treeBuildOk :: runDispatch cfg env auto boundAddr
     else dieWithCallback env.callbackDeliveryOk cfg.callbackAddr
       ("could not create filesystem: " ++ env.buildErrMsg))

/-- The `net.Listen` step (part_001 lines 140-144). -/
def runFromListen (cfg : MsConfig) (env : MsEnv) (auto : Bool) :
    List MsEvent :=
  match env.listenOutcome with
  | .error e => dieWithCallback env.callbackDeliveryOk cfg.callbackAddr
      ("could not listen on " ++ cfg.listenAddr ++ ": " ++ e)
  | .ok boundAddr => runFromBuild cfg env auto boundAddr

/-- The cache-directory existence check and creation (part_001 lines
127-137). -/
def runFromCacheDir (cfg : MsConfig) (env : MsEnv) (auto : Bool)
    (cacheDir : String) : List MsEvent :=
  match env.isDirOutcome with
  | .error e => dieWithCallback env.callbackDeliveryOk cfg.callbackAddr
      ("could not check if cache directory " ++ cacheDir ++
        " exists: " ++ e)
  | .ok dirExists =>
    if dirExists then runFromListen cfg env auto
    else if env.mkdirOk then runFromListen cfg env auto
    else dieWithCallback env.callbackDeliveryOk cfg.callbackAddr
      "could not create local cache directory"

/-- Embeds the body of `mountServerCmd.Run` (part_001 lines 96-199)
as the event trace of one run: logging setup, cache-dir resolution
(flag, then environment variable, then an auto-generated directory
whose deferred removal `runShutdown` performs), then the staged
startup. Flag parsing is taken as already succeeded (its failure paths
do not involve the callback or listener). The background adapter
goroutine's own failure path is concurrent and is not part of this
trace. -/
def mountServerRun (cfg : MsConfig) (env : MsEnv) : List MsEvent :=
  if cfg.logFile ≠ "" ∧ env.logOpenOk = false then
    dieWithCallback env.callbackDeliveryOk cfg.callbackAddr
      ("could not open log file " ++ cfg.logFile)
  else if cfg.cacheDirFlag ≠ "" then
    runFromCacheDir cfg env false cfg.cacheDirFlag
  else if env.envCacheDir ≠ "" then
    runFromCacheDir cfg env false env.envCacheDir
  else
    runFromCacheDir cfg env true env.autoCacheDir

/-- Recognizes a callback delivery event. -/
def isCallbackMsg : MsEvent → Bool
  | .callbackConn _ => true
  | _ => false

/-- Number of callback messages delivered in a trace. -/
def countCallbackMsgs (tr : List MsEvent) : Nat :=
  tr.countP isCallbackMsg

/-- Recognizes an adapter start event. -/
def isAdapterStart : MsEvent → Bool
  | .adapterStarted _ => true
  | _ => false

/-- Whether some protocol adapter was started in a trace. -/
def hasAdapter (tr : List MsEvent) : Bool := tr.any isAdapterStart

/-- Recognizes the serving event. -/
def isServing : MsEvent → Bool
  | .serving => true
  | _ => false

/-- Whether the run entered the serving phase. -/
def hasServing (tr : List MsEvent) : Bool := tr.any isServing

/-- Scans a trace and checks that every `treeBuildStart` is preceded
by some `listenerBound` (the `seen` flag records whether a bind has
occurred). -/
def buildAfterBindOk : List MsEvent → Bool → Bool
  | [], _ => true
  | .listenerBound _ :: rest, _ => buildAfterBindOk rest true
  | .treeBuildStart :: rest, seen => seen && buildAfterBindOk rest seen
  | _ :: rest, seen => buildAfterBindOk rest seen

/-- The stages before the index build all succeed: logging is set up,
the cache directory exists or is created, and the listener binds. -/
def reachesBuild (cfg : MsConfig) (env : MsEnv) : Bool :=
  (cfg.logFile == "" || env.logOpenOk) &&
  (match env.isDirOutcome with
   | .ok dirExists => dirExists || env.mkdirOk
   | .error _ => false) &&
  (match env.listenOutcome with
   | .ok _ => true
   | .error _ => false)

/-- The address `net.Listen` bound, read off the listen outcome. -/
def boundAddrOf (env : MsEnv) : String :=
  match env.listenOutcome with
  | .ok a => a
  | .error _ => ""

end Cmd

namespace Fixtures

/-- A sample archive entry file info used by concrete checks. -/
def sampleFI : Dav.FileInfo :=
  { name := "/a/b.txt", size := 12, modTime := 1700000000, isDir := false }

/-- A sample tree with one 12-byte file at `/a/b.txt`. -/
def sampleTree : Dav.Tree where
  Stat := fun n =>
    if n = "/a/b.txt" then .ok sampleFI else .error .errNotExist
  Open := fun n =>
    if n = "/a/b.txt" then
      .ok [104, 101, 108, 108, 111, 32, 119, 111, 114, 108, 100, 33]
    else .error .errNotExist

/-- The dav adapter over the sample tree. -/
def sampleFS : Dav.davFS := ⟨sampleTree⟩

/-- Call outcomes where GetObject reports `NoSuchKey` and HeadObject
reports `NoSuchBucket`. -/
def notFoundOutcomes : Remote.S3CallOutcomes where
  parseOutcome := .ok ⟨"some-bucket", "/archive.zip"⟩
  serviceOutcome := .ok ⟨"us-east-1"⟩
  getObjectOutcome := fun _ =>
    .error (.awsError Remote.errCodeNoSuchKey "no such key")
  headObjectOutcome :=
    .error (.awsError Remote.errCodeNoSuchBucket "no such bucket")

/-- Call outcomes where the backend fails with an access-denied
error. -/
def deniedOutcomes : Remote.S3CallOutcomes where
  parseOutcome := .ok ⟨"some-bucket", "/archive.zip"⟩
  serviceOutcome := .ok ⟨"us-east-1"⟩
  getObjectOutcome := fun _ => .error (.awsError "AccessDenied" "denied")
  headObjectOutcome := .error (.awsError "AccessDenied" "denied")

/-- A region resolver that fails for the bucket `bad` and resolves
every other bucket to `eu-west-1`. -/
def sampleResolver : Remote.S3Client → String →
    Except Remote.GoError String :=
  fun _ b =>
    if b = "bad" then .error (.plain "get bucket region: timeout")
    else .ok "eu-west-1"

/-- Mount server flags with an unknown protocol value and a configured
callback address. -/
def cfgUnknownProto : Cmd.MsConfig :=
  { remoteFile := "s3://b/f.zip", cacheDirFlag := "/tmp/cache",
    listenAddr := "127.0.0.1:0", callbackAddr := "127.0.0.1:9999",
    logFile := "", protocol := "smb" }

/-- Mount server flags using NFS, a configured callback address, and
no cache-dir flag (so the directory is auto-generated). -/
def cfgAutoNfs : Cmd.MsConfig :=
  { remoteFile := "s3://b/f.zip", cacheDirFlag := "",
    listenAddr := "127.0.0.1:0", callbackAddr := "127.0.0.1:9999",
    logFile := "", protocol := "nfs" }

/-- Mount server flags using WebDAV with a caller-supplied cache
directory. -/
def cfgWebdav : Cmd.MsConfig :=
  { remoteFile := "s3://b/f.zip", cacheDirFlag := "/tmp/cache",
    listenAddr := "127.0.0.1:0", callbackAddr := "127.0.0.1:9999",
    logFile := "", protocol := "webdav" }

/-- Environment outcomes where every external call succeeds. -/
def envAllOk : Cmd.MsEnv :=
  { logOpenOk := true, envCacheDir := "", autoCacheDir := "/tmp/auto",
    isDirOutcome := .ok true, mkdirOk := true,
    listenOutcome := .ok "127.0.0.1:45001", buildOk := true,
    buildErrMsg := "", callbackDeliveryOk := true, removeOk := true,
    serveOk := true, serveErrMsg := "" }

/-- Environment outcomes where the index build fails. -/
def envBuildFail : Cmd.MsEnv :=
  { envAllOk with buildOk := false, buildErrMsg := "not a zip file" }

/-- Environment outcomes where removing the auto-generated cache
directory at shutdown fails. -/
def envRemoveFail : Cmd.MsEnv :=
  { envAllOk with removeOk := false }

/-- Environment outcomes where the background adapter serve loop
fails. -/
def envServeFail : Cmd.MsEnv :=
  { envAllOk with
    serveOk := false
    serveErrMsg := "address already in use" }

end Fixtures

/-- Claim C1: for every pair of offsets the produced range expression
is exactly one of the four documented forms, selected by which offsets
are non-zero; in particular `(0, 0)` produces no range expression at
all. -/
theorem buildRange_four_forms (s e : Int) :
    (s = 0 ∧ e = 0 ∧ Remote.buildRange s e = none) ∨
    (s ≠ 0 ∧ e = 0 ∧
      Remote.buildRange s e = some ("bytes=" ++ toString s ++ "-")) ∨
    (s ≠ 0 ∧ e ≠ 0 ∧
      Remote.buildRange s e =
        some ("bytes=" ++ toString s ++ "-" ++ toString e)) ∨
    (s = 0 ∧ e ≠ 0 ∧
      Remote.buildRange s e = some ("bytes=-" ++ toString e)) := by
  by_cases hs : s = 0 <;> by_cases he : e = 0
  · exact Or.inl ⟨hs, he, by
      simp [Remote.buildRange, Remote.buildRangeExpr, hs, he]⟩
  · refine Or.inr (Or.inr (Or.inr ⟨hs, he, ?_⟩))
    simp [Remote.buildRange, Remote.buildRangeExpr, Remote.renderRange, hs, he]
  · refine Or.inr (Or.inl ⟨hs, he, ?_⟩)
    simp [Remote.buildRange, Remote.buildRangeExpr, Remote.renderRange, hs, he]
  · refine Or.inr (Or.inr (Or.inl ⟨hs, he, ?_⟩))
    simp [Remote.buildRange, Remote.buildRangeExpr, Remote.renderRange, hs, he]

/-- Claim C9: a request with `offsetStart = 0` and `offsetEnd = n ≠ 0`
is built as the suffix form `bytes=-n` (the last `n` bytes), and no
pair of offsets whatsoever is built as the two-bound form with start
bound 0, so an inclusive range starting at byte 0 cannot be requested
through this interface. -/
theorem buildRange_zero_start_is_suffix (n : Int) (hn : n ≠ 0) :
    Remote.buildRangeExpr 0 n = some (.suffixLen n) ∧
    Remote.buildRange 0 n = some ("bytes=-" ++ toString n) ∧
    ∀ s e : Int, Remote.buildRangeExpr s e ≠ some (.bounded 0 n) := by
  refine ⟨?_, ?_, ?_⟩
  · simp [Remote.buildRangeExpr, hn]
  · simp [Remote.buildRange, Remote.buildRangeExpr, Remote.renderRange, hn]
  · intro s e h
    by_cases hs : s = 0 <;> by_cases he : e = 0 <;>
      simp [Remote.buildRangeExpr, hs, he] at h

/-- Witness for C9 at `n = 7`. -/
theorem buildRange_zero_start_is_suffix_witness :
    Remote.buildRange 0 7 = some "bytes=-7" := by
  have h := buildRange_zero_start_is_suffix 7 (by decide)
  simpa using h.2.1

/-- Claim C2: when the backend call itself reports a no-such-container
or no-such-object error code, `Download` and `SizeOf` both return the
`ErrDoesNotExist` sentinel, never the raw backend error; any backend
error that is not a not-found condition is propagated unchanged. The
last conjunct pins the meaning of a not-found condition to exactly the
two codes `NoSuchBucket` and `NoSuchKey`. -/
theorem download_sizeof_notfound_mapping (env : Remote.S3CallOutcomes)
    (u : Remote.S3ParsedUri) (svc : Remote.S3Client)
    (s e : Int) (errG errH : Remote.GoError)
    (hp : env.parseOutcome = .ok u)
    (hs : env.serviceOutcome = .ok svc)
    (hg : env.getObjectOutcome (Remote.buildRange s e) = .error errG)
    (hh : env.headObjectOutcome = .error errH) :
    ((∃ m, errG = .awsError Remote.errCodeNoSuchBucket m ∨
           errG = .awsError Remote.errCodeNoSuchKey m) →
      Remote.S3Downloader.Download env s e =
        .error .errDoesNotExist) ∧
    (Remote.s3IsNotFoundErr (some errG) = false →
      Remote.S3Downloader.Download env s e = .error errG) ∧
    ((∃ m, errH = .awsError Remote.errCodeNoSuchBucket m ∨
           errH = .awsError Remote.errCodeNoSuchKey m) →
      Remote.S3Downloader.SizeOf env = .error .errDoesNotExist) ∧
    (Remote.s3IsNotFoundErr (some errH) = false →
      Remote.S3Downloader.SizeOf env = .error errH) ∧
    (∀ code m,
      Remote.s3IsNotFoundErr (some (.awsError code m)) = true ↔
        (code = Remote.errCodeNoSuchBucket ∨
         code = Remote.errCodeNoSuchKey)) := by
  refine ⟨?_, ?_, ?_, ?_, ?_⟩
  · rintro ⟨m, hm | hm⟩ <;> subst hm <;>
      simp [Remote.S3Downloader.Download, hp, hs, hg,
        Remote.s3IsNotFoundErr]
  · intro hnf
    simp [Remote.S3Downloader.Download, hp, hs, hg, hnf]
  · rintro ⟨m, hm | hm⟩ <;> subst hm <;>
      simp [Remote.S3Downloader.SizeOf, hp, hs, hh,
        Remote.s3IsNotFoundErr]
  · intro hnf
    simp [Remote.S3Downloader.SizeOf, hp, hs, hh, hnf]
  · intro code m
    simp [Remote.s3IsNotFoundErr]

/-- Witness for C2: with a `NoSuchKey` GetObject outcome and a
`NoSuchBucket` HeadObject outcome both calls yield the sentinel, and
with access-denied outcomes both propagate the raw error unchanged. -/
theorem download_sizeof_notfound_mapping_witness :
    Remote.S3Downloader.Download Fixtures.notFoundOutcomes 0 0 =
      .error .errDoesNotExist ∧
    Remote.S3Downloader.SizeOf Fixtures.notFoundOutcomes =
      .error .errDoesNotExist ∧
    Remote.S3Downloader.Download Fixtures.deniedOutcomes 0 0 =
      .error (.awsError "AccessDenied" "denied") ∧
    Remote.S3Downloader.SizeOf Fixtures.deniedOutcomes =
      .error (.awsError "AccessDenied" "denied") := by
  have h1 := download_sizeof_notfound_mapping Fixtures.notFoundOutcomes
    ⟨"some-bucket", "/archive.zip"⟩ ⟨"us-east-1"⟩ 0 0
    (.awsError Remote.errCodeNoSuchKey "no such key")
    (.awsError Remote.errCodeNoSuchBucket "no such bucket")
    rfl rfl rfl rfl
  have h2 := download_sizeof_notfound_mapping Fixtures.deniedOutcomes
    ⟨"some-bucket", "/archive.zip"⟩ ⟨"us-east-1"⟩ 0 0
    (.awsError "AccessDenied" "denied")
    (.awsError "AccessDenied" "denied")
    rfl rfl rfl rfl
  refine ⟨h1.1 ⟨"no such key", Or.inr rfl⟩,
          h1.2.2.1 ⟨"no such bucket", Or.inl rfl⟩,
          h2.2.1 (by decide),
          h2.2.2.2.1 (by decide)⟩

/-- Claim C10: when region resolution for a bucket fails,
`getServiceForBucket` returns that error and leaves the service cache
unchanged, and consequently a cache in which every client was built
from a successfully resolved region stays that way across any call. -/
theorem getServiceForBucket_error_no_insert
    (resolveRegion : Remote.S3Client → String →
      Except Remote.GoError String)
    (cache : Remote.ServiceCache) (bucket : String)
    (e : Remote.GoError)
    (hmiss : cache.lookup bucket = none)
    (hfail : resolveRegion ⟨Remote.defaultRegion⟩ bucket = .error e) :
    Remote.getServiceForBucket resolveRegion cache bucket =
      (.error e, cache) ∧
    ∀ b, Remote.cacheResolved resolveRegion cache →
      Remote.cacheResolved resolveRegion
        (Remote.getServiceForBucket resolveRegion cache b).2 := by
  constructor
  · simp [Remote.getServiceForBucket, hmiss, hfail]
  · intro b hinv
    unfold Remote.getServiceForBucket
    cases hl : cache.lookup b with
    | some svc => exact hinv
    | none =>
      cases hr : resolveRegion ⟨Remote.defaultRegion⟩ b with
      | error err => exact hinv
      | ok region =>
        intro b2 svc2 hmem
        rcases List.mem_cons.mp hmem with heq | hmem2
        · injection heq with h1 h2
          subst h1; subst h2
          simpa using hr
        · exact hinv b2 svc2 hmem2

/-- Witness for C10: resolution of the bucket `bad` fails and the
empty cache stays empty. -/
theorem getServiceForBucket_error_no_insert_witness :
    Remote.getServiceForBucket Fixtures.sampleResolver [] "bad" =
      (.error (.plain "get bucket region: timeout"), []) := by
  have h := getServiceForBucket_error_no_insert Fixtures.sampleResolver
    [] "bad" (.plain "get bucket region: timeout") rfl (by
      simp [Fixtures.sampleResolver])
  exact h.1

/-- Counterexample to C7 as stated: on a cache miss (here with a
successful resolution) the region-lookup network call of
`getServiceForBucket` does not run outside the route-cache lock — the
method locks on entry and releases only by `defer` on return, so the
call executes with the lock held. -/
theorem getService_network_call_not_outside_lock_cex :
    ¬ (Remote.networkCallsOutsideLock
        (Remote.getServiceForBucketActions false true) = true) := by
  decide

/-- Claim C7 amended: route resolution performs the bucket-region
network call while holding the route-cache lock (the lock is acquired
on entry and released only when the method returns), so concurrent
first-time resolutions — even for different buckets — serialize on
that lock. The cold path always contains the network call, and that
call is never outside the lock. -/
theorem getService_network_call_under_lock (resolveOk : Bool) :
    Remote.networkCallsUnderLock
      (Remote.getServiceForBucketActions false resolveOk) = true ∧
    Remote.networkCallsOutsideLock
      (Remote.getServiceForBucketActions false resolveOk) = false ∧
    Remote.LockAction.networkCall ∈
      Remote.getServiceForBucketActions false resolveOk := by
  cases resolveOk <;> exact ⟨by decide, by decide, by decide⟩

/-- Claim C3: for every path opened with flags requesting read access,
`davFS.OpenFile` delegates to the tree — the path is resolved through
the tree and the returned handle streams content through `Tree.Open`
on the opened entry — and the handle reports size and modification
time taken from the path's archive entry. -/
theorem davFS_OpenFile_delegates (t : Dav.Tree) (name : String)
    (flag perm : Nat) (fi : Dav.FileInfo)
    (hread : Dav.requestsRead flag = true)
    (hstat : t.Stat name = .ok fi) :
    Dav.davFS.OpenFile ⟨t⟩ name flag perm = .ok ⟨t, fi⟩ ∧
    ∀ f, Dav.davFS.OpenFile ⟨t⟩ name flag perm = .ok f →
      f.statInfo.size = fi.size ∧
      f.statInfo.modTime = fi.modTime ∧
      f.readContent = t.Open fi.name := by
  have h : Dav.davFS.OpenFile ⟨t⟩ name flag perm = .ok ⟨t, fi⟩ := by
    simp [Dav.davFS.OpenFile, hstat]
  refine ⟨h, ?_⟩
  intro f hf
  rw [h] at hf
  injection hf with hf
  subst hf
  exact ⟨rfl, rfl, rfl⟩

/-- Witness for C3: opening `/a/b.txt` read-only on the sample tree
returns the handle over its archive entry. -/
theorem davFS_OpenFile_delegates_witness :
    Dav.davFS.OpenFile ⟨Fixtures.sampleTree⟩ "/a/b.txt" 0 0 =
      .ok ⟨Fixtures.sampleTree, Fixtures.sampleFI⟩ := by
  have h := davFS_OpenFile_delegates Fixtures.sampleTree "/a/b.txt" 0 0
    Fixtures.sampleFI (by decide) (by simp [Fixtures.sampleTree])
  exact h.1

/-- Claim C4 amended: for every input, the dav adapter's `Mkdir`,
`RemoveAll` and `Rename` fail unconditionally — but with
`os.ErrInvalid` (Go "invalid argument"), not with an
operation-not-permitted condition — and leave the adapter, and thereby
the tree and cache, untouched. -/
theorem dav_mutators_always_fail (fs : Dav.davFS) (n1 n2 : String)
    (perm : Nat) :
    Dav.davFS.Mkdir fs n1 perm = (some .errInvalid, fs) ∧
    Dav.davFS.RemoveAll fs n1 = (some .errInvalid, fs) ∧
    Dav.davFS.Rename fs n1 n2 = (some .errInvalid, fs) :=
  ⟨rfl, rfl, rfl⟩

/-- Counterexample to C4 as stated: at the concrete inputs below the
three mutating operations do fail, but with `os.ErrInvalid`, whose Go
message is "invalid argument" — not with an operation-not-permitted
permission condition. -/
theorem dav_mutators_not_eperm_cex :
    (Dav.davFS.Mkdir Fixtures.sampleFS "/newdir" 493).1 ≠
      some .errPermission ∧
    (Dav.davFS.RemoveAll Fixtures.sampleFS "/a").1 ≠
      some .errPermission ∧
    (Dav.davFS.Rename Fixtures.sampleFS "/a" "/b").1 ≠
      some .errPermission ∧
    (Dav.davFS.Mkdir Fixtures.sampleFS "/newdir" 493).1 =
      some .errInvalid ∧
    Dav.FsError.goMessage .errInvalid ≠ "operation not permitted" := by
  refine ⟨by decide, by decide, by decide, rfl, by decide⟩

/-- Explicit trace of `dieWithCallback`: one error callback when an
address is configured and delivery works, then the failing exit. -/
theorem dieWithCallback_eq (d : Bool) (a m : String) :
    Cmd.dieWithCallback d a m =
      (if a ≠ "" ∧ d = true then
        [.callbackConn (Cmd.sendCallbackLine (Cmd.statusString .error) m)]
       else []) ++ [.processExit false] := by
  unfold Cmd.dieWithCallback Cmd.sendCallback
  by_cases h : a = "" <;> cases d <;> simp [h]

/-- Every event of a `dieWithCallback` trace is the single error
callback or the failing exit. -/
theorem mem_dieWithCallback (d : Bool) (a m : String)
    (ev : Cmd.MsEvent) (h : ev ∈ Cmd.dieWithCallback d a m) :
    ev = .callbackConn
          (Cmd.sendCallbackLine (Cmd.statusString .error) m) ∨
    ev = .processExit false := by
  rw [dieWithCallback_eq] at h
  rcases List.mem_append.mp h with h1 | h1
  · split at h1
    · exact Or.inl (by simpa using h1)
    · simp at h1
  · exact Or.inr (by simpa using h1)

/-- Callback-message count of a `dieWithCallback` trace. -/
theorem countCallbackMsgs_die (d : Bool) (a m : String) :
    Cmd.countCallbackMsgs (Cmd.dieWithCallback d a m) =
      if a ≠ "" ∧ d = true then 1 else 0 := by
  rw [dieWithCallback_eq]
  split <;>
    simp [Cmd.countCallbackMsgs, Cmd.isCallbackMsg, List.countP_cons]

/-- `dieWithCallback` starts no adapter. -/
theorem hasAdapter_die (d : Bool) (a m : String) :
    Cmd.hasAdapter (Cmd.dieWithCallback d a m) = false := by
  rw [dieWithCallback_eq]
  split <;> simp [Cmd.hasAdapter, Cmd.isAdapterStart]

/-- `dieWithCallback` never serves. -/
theorem hasServing_die (d : Bool) (a m : String) :
    Cmd.hasServing (Cmd.dieWithCallback d a m) = false := by
  rw [dieWithCallback_eq]
  split <;> simp [Cmd.hasServing, Cmd.isServing]

/-- A `dieWithCallback` trace contains no bind or build event, so the
bind-before-build scan accepts it in any state. -/
theorem buildAfterBindOk_die (d : Bool) (a m : String) (seen : Bool) :
    Cmd.buildAfterBindOk (Cmd.dieWithCallback d a m) seen = true := by
  rw [dieWithCallback_eq]
  split <;> simp [Cmd.buildAfterBindOk]

/-- Once a bind has been seen, the bind-before-build scan accepts any
remaining trace. -/
theorem buildAfterBindOk_seen (l : List Cmd.MsEvent) :
    Cmd.buildAfterBindOk l true = true := by
  induction l with
  | nil => rfl
  | cons hd tl ih => cases hd <;> simp [Cmd.buildAfterBindOk, ih]

/-- Unpacking of `reachesBuild`: logging set up, cache directory
present or created, listener bound at `boundAddrOf env`. -/
theorem reachesBuild_spec (cfg : Cmd.MsConfig) (env : Cmd.MsEnv)
    (h : Cmd.reachesBuild cfg env = true) :
    (cfg.logFile = "" ∨ env.logOpenOk = true) ∧
    (∃ ex, env.isDirOutcome = .ok ex ∧
      (ex = true ∨ env.mkdirOk = true)) ∧
    env.listenOutcome = .ok (Cmd.boundAddrOf env) := by
  unfold Cmd.reachesBuild at h
  simp only [Bool.and_eq_true, Bool.or_eq_true, beq_iff_eq] at h
  obtain ⟨⟨h1, h2⟩, h3⟩ := h
  refine ⟨h1, ?_, ?_⟩
  · cases hd : env.isDirOutcome with
    | ok ex =>
      rw [hd] at h2
      rcases Bool.or_eq_true _ _ |>.mp h2 with he | he
      · exact ⟨ex, rfl, Or.inl he⟩
      · exact ⟨ex, rfl, Or.inr he⟩
    | error e => rw [hd] at h2; cases h2
  · cases hl : env.listenOutcome with
    | ok a => simp [Cmd.boundAddrOf, hl]
    | error e => rw [hl] at h3; cases h3

/-- When every stage before the index build succeeds, the run reduces
to the bind-then-build stage at the bound address (whichever way the
cache directory was chosen). -/
theorem mountServerRun_eq_build (cfg : Cmd.MsConfig) (env : Cmd.MsEnv)
    (hreach : Cmd.reachesBuild cfg env = true) :
    ∃ auto, Cmd.mountServerRun cfg env =
      Cmd.runFromBuild cfg env auto (Cmd.boundAddrOf env) := by
  obtain ⟨hlog, ⟨ex, hdir, hex⟩, hlis⟩ := reachesBuild_spec cfg env hreach
  have hlogcond : ¬ (cfg.logFile ≠ "" ∧ env.logOpenOk = false) := by
    rintro ⟨hne, hfalse⟩
    rcases hlog with h | h
    · exact hne h
    · rw [h] at hfalse; cases hfalse
  have hcd : ∀ auto dir, Cmd.runFromCacheDir cfg env auto dir =
      Cmd.runFromBuild cfg env auto (Cmd.boundAddrOf env) := by
    intro auto dir
    unfold Cmd.runFromCacheDir Cmd.runFromListen
    rw [hdir, hlis]
    rcases hex with he | he
    · simp [he]
    · cases ex <;> simp [he]
  unfold Cmd.mountServerRun
  rw [if_neg hlogcond]
  by_cases h1 : cfg.cacheDirFlag ≠ ""
  · exact ⟨false, by rw [if_pos h1]; exact hcd false _⟩
  · rw [if_neg h1]
    by_cases h2 : env.envCacheDir ≠ ""
    · exact ⟨false, by rw [if_pos h2]; exact hcd false _⟩
    · exact ⟨true, by rw [if_neg h2]; exact hcd true _⟩

/-- Callback-count of an empty trace. -/
theorem countCallbackMsgs_nil : Cmd.countCallbackMsgs [] = 0 := rfl

/-- Callback-count of a cons trace. -/
theorem countCallbackMsgs_cons (ev : Cmd.MsEvent)
    (tr : List Cmd.MsEvent) :
    Cmd.countCallbackMsgs (ev :: tr) =
      (if Cmd.isCallbackMsg ev then 1 else 0) +
        Cmd.countCallbackMsgs tr := by
  simp [Cmd.countCallbackMsgs, List.countP_cons]
  split <;> simp [Nat.add_comm]

/-- Callback-count of an appended trace. -/
theorem countCallbackMsgs_append (a b : List Cmd.MsEvent) :
    Cmd.countCallbackMsgs (a ++ b) =
      Cmd.countCallbackMsgs a + Cmd.countCallbackMsgs b := by
  simp [Cmd.countCallbackMsgs, List.countP_append]

/-- The deferred shutdown sends no callback when the cache directory
was caller-supplied or its removal succeeds. -/
theorem countCallbackMsgs_shutdown (cfg : Cmd.MsConfig)
    (env : Cmd.MsEnv) (auto : Bool)
    (hna : auto = false ∨ env.removeOk = true) :
    Cmd.countCallbackMsgs (Cmd.runShutdown cfg env auto) = 0 := by
  unfold Cmd.runShutdown
  rcases hna with h | h
  · subst h
    simp [countCallbackMsgs_cons, Cmd.isCallbackMsg,
      countCallbackMsgs_nil]
  · cases auto <;>
      simp [h, countCallbackMsgs_cons, Cmd.isCallbackMsg,
        countCallbackMsgs_nil]

/-- The serving phase sends no callback when the serve loop stays up
and the shutdown sends none. -/
theorem countCallbackMsgs_serve (cfg : Cmd.MsConfig)
    (env : Cmd.MsEnv) (auto : Bool) (name b : String)
    (hna : auto = false ∨ env.removeOk = true)
    (hs : env.serveOk = true) :
    Cmd.countCallbackMsgs (Cmd.runServe cfg env auto name b) = 0 := by
  unfold Cmd.runServe
  rw [hs]
  simp [countCallbackMsgs_cons, Cmd.isCallbackMsg,
    countCallbackMsgs_shutdown cfg env auto hna]

/-- When the serve loop fails, the serving phase sends exactly one
error callback (the adapter goroutine's `dieWithCallback`). -/
theorem countCallbackMsgs_serve_fail (cfg : Cmd.MsConfig)
    (env : Cmd.MsEnv) (auto : Bool) (name b : String)
    (hcb : cfg.callbackAddr ≠ "")
    (hdel : env.callbackDeliveryOk = true)
    (hs : env.serveOk = false) :
    Cmd.countCallbackMsgs (Cmd.runServe cfg env auto name b) = 1 := by
  unfold Cmd.runServe
  rw [hs]
  simp [countCallbackMsgs_cons, Cmd.isCallbackMsg,
    countCallbackMsgs_die, hcb, hdel]

/-- From the adapter start onwards, exactly one callback message (the
success report) is sent, provided the serving phase sends none. -/
theorem countCallbackMsgs_afterStart (cfg : Cmd.MsConfig)
    (env : Cmd.MsEnv) (auto : Bool) (name b : String)
    (hcb : cfg.callbackAddr ≠ "")
    (hdel : env.callbackDeliveryOk = true)
    (hna : auto = false ∨ env.removeOk = true)
    (hs : env.serveOk = true) :
    Cmd.countCallbackMsgs (Cmd.runAfterStart cfg env auto name b) =
      1 := by
  unfold Cmd.runAfterStart Cmd.sendCallback
  rw [if_pos hcb, hdel]
  simp [countCallbackMsgs_append, countCallbackMsgs_cons,
    Cmd.isCallbackMsg, countCallbackMsgs_nil,
    countCallbackMsgs_serve cfg env auto name b hna hs]

/-- From the adapter start onwards, a failing serve loop makes it two
callback messages: the success report and the goroutine's error
report. -/
theorem countCallbackMsgs_afterStart_servefail (cfg : Cmd.MsConfig)
    (env : Cmd.MsEnv) (auto : Bool) (name b : String)
    (hcb : cfg.callbackAddr ≠ "")
    (hdel : env.callbackDeliveryOk = true)
    (hs : env.serveOk = false) :
    Cmd.countCallbackMsgs (Cmd.runAfterStart cfg env auto name b) =
      2 := by
  unfold Cmd.runAfterStart Cmd.sendCallback
  rw [if_pos hcb, hdel]
  simp [countCallbackMsgs_append, countCallbackMsgs_cons,
    Cmd.isCallbackMsg, countCallbackMsgs_nil,
    countCallbackMsgs_serve_fail cfg env auto name b hcb hdel hs]

/-- The protocol dispatch stage sends exactly one callback message:
the success report for a known protocol, the error report
otherwise. -/
theorem countCallbackMsgs_dispatch (cfg : Cmd.MsConfig)
    (env : Cmd.MsEnv) (auto : Bool) (b : String)
    (hcb : cfg.callbackAddr ≠ "")
    (hdel : env.callbackDeliveryOk = true)
    (hna : auto = false ∨ env.removeOk = true)
    (hs : env.serveOk = true) :
    Cmd.countCallbackMsgs (Cmd.runDispatch cfg env auto b) = 1 := by
  unfold Cmd.runDispatch
  by_cases h1 : cfg.protocol = "nfs"
  · rw [if_pos h1]
    simp [countCallbackMsgs_cons, Cmd.isCallbackMsg,
      countCallbackMsgs_afterStart cfg env auto "NFS" b hcb hdel hna hs]
  · rw [if_neg h1]
    by_cases h2 : cfg.protocol = "webdav"
    · rw [if_pos h2]
      simp [countCallbackMsgs_cons, Cmd.isCallbackMsg,
        countCallbackMsgs_afterStart cfg env auto "WebDav" b hcb hdel
          hna hs]
    · rw [if_neg h2, countCallbackMsgs_die]
      simp [hcb, hdel]

/-- The bind-then-build stage sends exactly one callback message. -/
theorem countCallbackMsgs_fromBuild (cfg : Cmd.MsConfig)
    (env : Cmd.MsEnv) (auto : Bool) (b : String)
    (hcb : cfg.callbackAddr ≠ "")
    (hdel : env.callbackDeliveryOk = true)
    (hna : auto = false ∨ env.removeOk = true)
    (hs : env.serveOk = true) :
    Cmd.countCallbackMsgs (Cmd.runFromBuild cfg env auto b) = 1 := by
  unfold Cmd.runFromBuild
  cases hb : env.buildOk
  · simp [countCallbackMsgs_cons, Cmd.isCallbackMsg,
      countCallbackMsgs_die, hcb, hdel]
  · simp [countCallbackMsgs_cons, Cmd.isCallbackMsg,
      countCallbackMsgs_dispatch cfg env auto b hcb hdel hna hs]

/-- The listen stage sends exactly one callback message. -/
theorem countCallbackMsgs_fromListen (cfg : Cmd.MsConfig)
    (env : Cmd.MsEnv) (auto : Bool)
    (hcb : cfg.callbackAddr ≠ "")
    (hdel : env.callbackDeliveryOk = true)
    (hna : auto = false ∨ env.removeOk = true)
    (hs : env.serveOk = true) :
    Cmd.countCallbackMsgs (Cmd.runFromListen cfg env auto) = 1 := by
  unfold Cmd.runFromListen
  cases hl : env.listenOutcome
  · rw [countCallbackMsgs_die]; simp [hcb, hdel]
  · exact countCallbackMsgs_fromBuild cfg env auto _ hcb hdel hna hs

/-- The cache-directory stage sends exactly one callback message. -/
theorem countCallbackMsgs_fromCacheDir (cfg : Cmd.MsConfig)
    (env : Cmd.MsEnv) (auto : Bool) (dir : String)
    (hcb : cfg.callbackAddr ≠ "")
    (hdel : env.callbackDeliveryOk = true)
    (hna : auto = false ∨ env.removeOk = true)
    (hs : env.serveOk = true) :
    Cmd.countCallbackMsgs (Cmd.runFromCacheDir cfg env auto dir) = 1 := by
  unfold Cmd.runFromCacheDir
  cases hd : env.isDirOutcome with
  | error e => rw [countCallbackMsgs_die]; simp [hcb, hdel]
  | ok ex =>
    cases ex
    · cases hm : env.mkdirOk
      · simp only [Bool.false_eq_true, if_false]
        rw [countCallbackMsgs_die]; simp [hcb, hdel]
      · simp only [Bool.false_eq_true, if_false, if_true]
        exact countCallbackMsgs_fromListen cfg env auto hcb hdel hna hs
    · simp only [if_true]
      exact countCallbackMsgs_fromListen cfg env auto hcb hdel hna hs

/-- A full run sends exactly one callback message when a callback
address is configured, delivery works, the serve loop stays up, and
the shutdown path sends none (caller-supplied cache directory, or
removal succeeds). -/
theorem countCallbackMsgs_run (cfg : Cmd.MsConfig) (env : Cmd.MsEnv)
    (hcb : cfg.callbackAddr ≠ "")
    (hdel : env.callbackDeliveryOk = true)
    (hshut : cfg.cacheDirFlag ≠ "" ∨ env.envCacheDir ≠ "" ∨
      env.removeOk = true)
    (hs : env.serveOk = true) :
    Cmd.countCallbackMsgs (Cmd.mountServerRun cfg env) = 1 := by
  unfold Cmd.mountServerRun
  by_cases h0 : cfg.logFile ≠ "" ∧ env.logOpenOk = false
  · rw [if_pos h0, countCallbackMsgs_die]; simp [hcb, hdel]
  · rw [if_neg h0]
    by_cases h1 : cfg.cacheDirFlag ≠ ""
    · rw [if_pos h1]
      exact countCallbackMsgs_fromCacheDir cfg env false _ hcb hdel
        (Or.inl rfl) hs
    · rw [if_neg h1]
      by_cases h2 : env.envCacheDir ≠ ""
      · rw [if_pos h2]
        exact countCallbackMsgs_fromCacheDir cfg env false _ hcb hdel
          (Or.inl rfl) hs
      · rw [if_neg h2]
        have hrm : env.removeOk = true := by
          rcases hshut with h | h | h
          · exact absurd h h1
          · exact absurd h h2
          · exact h
        exact countCallbackMsgs_fromCacheDir cfg env true _ hcb hdel
          (Or.inr hrm) hs

/-- The one callback line of a `dieWithCallback` trace is the error
line for its message. -/
theorem line_dieWithCallback (d : Bool) (a m line : String)
    (h : Cmd.MsEvent.callbackConn line ∈ Cmd.dieWithCallback d a m) :
    line = Cmd.sendCallbackLine (Cmd.statusString .error) m := by
  rcases mem_dieWithCallback d a m _ h with h1 | h1
  · injection h1
  · cases h1

/-- Every callback line sent by the deferred shutdown is a
status-framed line. -/
theorem wfLine_shutdown (cfg : Cmd.MsConfig) (env : Cmd.MsEnv)
    (auto : Bool) (line : String)
    (h : Cmd.MsEvent.callbackConn line ∈ Cmd.runShutdown cfg env auto) :
    ∃ st msg, line = Cmd.sendCallbackLine (Cmd.statusString st) msg := by
  unfold Cmd.runShutdown at h
  split at h
  · split at h
    · simp at h
    · exact ⟨.error, _, line_dieWithCallback _ _ _ _ h⟩
  · simp at h


/-- Explicit trace of `runAfterStart`, by cases on callback address
and delivery. -/
theorem runAfterStart_eq (cfg : Cmd.MsConfig) (env : Cmd.MsEnv)
    (auto : Bool) (name b : String) :
    Cmd.runAfterStart cfg env auto name b =
      if cfg.callbackAddr ≠ "" then
        (if env.callbackDeliveryOk = true then
          .callbackConn
              (Cmd.sendCallbackLine (Cmd.statusString .success) b) ::
            Cmd.runServe cfg env auto name b
         else [.processExit false])
      else Cmd.runServe cfg env auto name b := by
  unfold Cmd.runAfterStart Cmd.sendCallback
  by_cases hcb : cfg.callbackAddr ≠ "" <;>
    cases hdel : env.callbackDeliveryOk <;> simp [hcb, hdel]

/-- Every callback line sent by the serving phase is a status-framed
line. -/
theorem wfLine_serve (cfg : Cmd.MsConfig) (env : Cmd.MsEnv)
    (auto : Bool) (name b : String) (line : String)
    (h : Cmd.MsEvent.callbackConn line ∈
      Cmd.runServe cfg env auto name b) :
    ∃ st msg, line = Cmd.sendCallbackLine (Cmd.statusString st) msg := by
  unfold Cmd.runServe at h
  split at h
  · rcases List.mem_cons.mp h with h1 | h1
    · cases h1
    · exact wfLine_shutdown cfg env auto line h1
  · rcases List.mem_cons.mp h with h1 | h1
    · cases h1
    · exact ⟨.error, _, line_dieWithCallback _ _ _ _ h1⟩

/-- Every callback line sent from the adapter start onwards is a
status-framed line. -/
theorem wfLine_afterStart (cfg : Cmd.MsConfig) (env : Cmd.MsEnv)
    (auto : Bool) (name b : String) (line : String)
    (h : Cmd.MsEvent.callbackConn line ∈
      Cmd.runAfterStart cfg env auto name b) :
    ∃ st msg, line = Cmd.sendCallbackLine (Cmd.statusString st) msg := by
  rw [runAfterStart_eq] at h
  split at h
  · split at h
    · rcases List.mem_cons.mp h with h1 | h1
      · exact ⟨.success, b, by injection h1⟩
      · exact wfLine_serve cfg env auto name b line h1
    · simp at h
  · exact wfLine_serve cfg env auto name b line h

/-- Every callback line sent by the dispatch stage is a status-framed
line. -/
theorem wfLine_dispatch (cfg : Cmd.MsConfig) (env : Cmd.MsEnv)
    (auto : Bool) (b : String) (line : String)
    (h : Cmd.MsEvent.callbackConn line ∈
      Cmd.runDispatch cfg env auto b) :
    ∃ st msg, line = Cmd.sendCallbackLine (Cmd.statusString st) msg := by
  unfold Cmd.runDispatch at h
  split at h
  · rcases List.mem_cons.mp h with h1 | h1
    · cases h1
    · exact wfLine_afterStart cfg env auto "NFS" b line h1
  · split at h
    · rcases List.mem_cons.mp h with h1 | h1
      · cases h1
      · exact wfLine_afterStart cfg env auto "WebDav" b line h1
    · exact ⟨.error, _, line_dieWithCallback _ _ _ _ h⟩

/-- Every callback line sent by the bind-then-build stage is a
status-framed line. -/
theorem wfLine_fromBuild (cfg : Cmd.MsConfig) (env : Cmd.MsEnv)
    (auto : Bool) (b : String) (line : String)
    (h : Cmd.MsEvent.callbackConn line ∈
      Cmd.runFromBuild cfg env auto b) :
    ∃ st msg, line = Cmd.sendCallbackLine (Cmd.statusString st) msg := by
  unfold Cmd.runFromBuild at h
  rcases List.mem_cons.mp h with h1 | h1
  · cases h1
  · rcases List.mem_cons.mp h1 with h2 | h2
    · cases h2
    · split at h2
      · rcases List.mem_cons.mp h2 with h3 | h3
        · cases h3
        · exact wfLine_dispatch cfg env auto b line h3
      · exact ⟨.error, _, line_dieWithCallback _ _ _ _ h2⟩

/-- Every callback line sent by the listen stage is a status-framed
line. -/
theorem wfLine_fromListen (cfg : Cmd.MsConfig) (env : Cmd.MsEnv)
    (auto : Bool) (line : String)
    (h : Cmd.MsEvent.callbackConn line ∈
      Cmd.runFromListen cfg env auto) :
    ∃ st msg, line = Cmd.sendCallbackLine (Cmd.statusString st) msg := by
  unfold Cmd.runFromListen at h
  split at h
  · exact ⟨.error, _, line_dieWithCallback _ _ _ _ h⟩
  · exact wfLine_fromBuild cfg env auto _ line h

/-- Every callback line sent by the cache-directory stage is a
status-framed line. -/
theorem wfLine_fromCacheDir (cfg : Cmd.MsConfig) (env : Cmd.MsEnv)
    (auto : Bool) (dir : String) (line : String)
    (h : Cmd.MsEvent.callbackConn line ∈
      Cmd.runFromCacheDir cfg env auto dir) :
    ∃ st msg, line = Cmd.sendCallbackLine (Cmd.statusString st) msg := by
  unfold Cmd.runFromCacheDir at h
  split at h
  · exact ⟨.error, _, line_dieWithCallback _ _ _ _ h⟩
  · split at h
    · exact wfLine_fromListen cfg env auto line h
    · split at h
      · exact wfLine_fromListen cfg env auto line h
      · exact ⟨.error, _, line_dieWithCallback _ _ _ _ h⟩

/-- Every callback line sent anywhere in a run is a status-framed
line `STATUS=MESSAGE\n`. -/
theorem wfLine_run (cfg : Cmd.MsConfig) (env : Cmd.MsEnv)
    (line : String)
    (h : Cmd.MsEvent.callbackConn line ∈ Cmd.mountServerRun cfg env) :
    ∃ st msg, line = Cmd.sendCallbackLine (Cmd.statusString st) msg := by
  unfold Cmd.mountServerRun at h
  split at h
  · exact ⟨.error, _, line_dieWithCallback _ _ _ _ h⟩
  · split at h
    · exact wfLine_fromCacheDir cfg env false _ line h
    · split at h
      · exact wfLine_fromCacheDir cfg env false _ line h
      · exact wfLine_fromCacheDir cfg env true _ line h

/-- From the listen stage on, the bind-before-build scan accepts the
trace: a build start only ever appears right after its bind. -/
theorem buildAfterBindOk_fromListen (cfg : Cmd.MsConfig)
    (env : Cmd.MsEnv) (auto : Bool) :
    Cmd.buildAfterBindOk (Cmd.runFromListen cfg env auto) false = true := by
  unfold Cmd.runFromListen
  split
  · exact buildAfterBindOk_die _ _ _ _
  · unfold Cmd.runFromBuild
    simp [Cmd.buildAfterBindOk, buildAfterBindOk_seen]

/-- The cache-directory stage satisfies the bind-before-build scan. -/
theorem buildAfterBindOk_fromCacheDir (cfg : Cmd.MsConfig)
    (env : Cmd.MsEnv) (auto : Bool) (dir : String) :
    Cmd.buildAfterBindOk (Cmd.runFromCacheDir cfg env auto dir) false =
      true := by
  unfold Cmd.runFromCacheDir
  split
  · exact buildAfterBindOk_die _ _ _ _
  · split
    · exact buildAfterBindOk_fromListen cfg env auto
    · split
      · exact buildAfterBindOk_fromListen cfg env auto
      · exact buildAfterBindOk_die _ _ _ _

/-- Every run satisfies the bind-before-build scan. -/
theorem buildAfterBindOk_run (cfg : Cmd.MsConfig) (env : Cmd.MsEnv) :
    Cmd.buildAfterBindOk (Cmd.mountServerRun cfg env) false = true := by
  unfold Cmd.mountServerRun
  split
  · exact buildAfterBindOk_die _ _ _ _
  · split
    · exact buildAfterBindOk_fromCacheDir cfg env false _
    · split
      · exact buildAfterBindOk_fromCacheDir cfg env false _
      · exact buildAfterBindOk_fromCacheDir cfg env true _

/-- When the build fails, the bind-then-build stage emits only the
bind, the build start, the error callback, and the failing exit. -/
theorem mem_fromBuild_fail (cfg : Cmd.MsConfig) (env : Cmd.MsEnv)
    (auto : Bool) (b : String) (ev : Cmd.MsEvent)
    (hb : env.buildOk = false)
    (h : ev ∈ Cmd.runFromBuild cfg env auto b) :
    (∃ a, ev = .listenerBound a) ∨ ev = .treeBuildStart ∨
    (∃ line, ev = .callbackConn line) ∨ ev = .processExit false := by
  unfold Cmd.runFromBuild at h
  rw [hb] at h
  simp only [Bool.false_eq_true, if_false] at h
  rcases List.mem_cons.mp h with h1 | h1
  · exact Or.inl ⟨b, h1⟩
  rcases List.mem_cons.mp h1 with h2 | h2
  · exact Or.inr (Or.inl h2)
  rcases mem_dieWithCallback _ _ _ _ h2 with h3 | h3
  · exact Or.inr (Or.inr (Or.inl ⟨_, h3⟩))
  · exact Or.inr (Or.inr (Or.inr h3))

/-- When the build fails, the listen stage emits only bind, build
start, callback and failing-exit events. -/
theorem mem_fromListen_fail (cfg : Cmd.MsConfig) (env : Cmd.MsEnv)
    (auto : Bool) (ev : Cmd.MsEvent) (hb : env.buildOk = false)
    (h : ev ∈ Cmd.runFromListen cfg env auto) :
    (∃ a, ev = .listenerBound a) ∨ ev = .treeBuildStart ∨
    (∃ line, ev = .callbackConn line) ∨ ev = .processExit false := by
  unfold Cmd.runFromListen at h
  split at h
  · rcases mem_dieWithCallback _ _ _ _ h with h1 | h1
    · exact Or.inr (Or.inr (Or.inl ⟨_, h1⟩))
    · exact Or.inr (Or.inr (Or.inr h1))
  · exact mem_fromBuild_fail cfg env auto _ ev hb h

/-- When the build fails, the cache-directory stage emits only bind,
build start, callback and failing-exit events. -/
theorem mem_fromCacheDir_fail (cfg : Cmd.MsConfig) (env : Cmd.MsEnv)
    (auto : Bool) (dir : String) (ev : Cmd.MsEvent)
    (hb : env.buildOk = false)
    (h : ev ∈ Cmd.runFromCacheDir cfg env auto dir) :
    (∃ a, ev = .listenerBound a) ∨ ev = .treeBuildStart ∨
    (∃ line, ev = .callbackConn line) ∨ ev = .processExit false := by
  unfold Cmd.runFromCacheDir at h
  split at h
  · rcases mem_dieWithCallback _ _ _ _ h with h1 | h1
    · exact Or.inr (Or.inr (Or.inl ⟨_, h1⟩))
    · exact Or.inr (Or.inr (Or.inr h1))
  · split at h
    · exact mem_fromListen_fail cfg env auto ev hb h
    · split at h
      · exact mem_fromListen_fail cfg env auto ev hb h
      · rcases mem_dieWithCallback _ _ _ _ h with h1 | h1
        · exact Or.inr (Or.inr (Or.inl ⟨_, h1⟩))
        · exact Or.inr (Or.inr (Or.inr h1))

/-- When the build fails, a whole run emits only bind, build start,
callback and failing-exit events: no adapter start, no serving, no
clean exit. -/
theorem mem_run_fail (cfg : Cmd.MsConfig) (env : Cmd.MsEnv)
    (ev : Cmd.MsEvent) (hb : env.buildOk = false)
    (h : ev ∈ Cmd.mountServerRun cfg env) :
    (∃ a, ev = .listenerBound a) ∨ ev = .treeBuildStart ∨
    (∃ line, ev = .callbackConn line) ∨ ev = .processExit false := by
  unfold Cmd.mountServerRun at h
  split at h
  · rcases mem_dieWithCallback _ _ _ _ h with h1 | h1
    · exact Or.inr (Or.inr (Or.inl ⟨_, h1⟩))
    · exact Or.inr (Or.inr (Or.inr h1))
  · split at h
    · exact mem_fromCacheDir_fail cfg env false _ ev hb h
    · split at h
      · exact mem_fromCacheDir_fail cfg env false _ ev hb h
      · exact mem_fromCacheDir_fail cfg env true _ ev hb h

/-- Claim C6: in every run the listen socket is bound before the tree
build begins (the scan `buildAfterBindOk` accepts every trace); when
the synchronous build fails, the run starts no protocol adapter and
never serves, and — when the earlier stages succeeded, a callback
address is configured and deliverable — the trace is exactly bind,
build start, one error callback, and the failing process exit. -/
theorem bind_before_build_and_build_failure_stops
    (cfg : Cmd.MsConfig) (env : Cmd.MsEnv) :
    Cmd.buildAfterBindOk (Cmd.mountServerRun cfg env) false = true ∧
    (env.buildOk = false →
      Cmd.hasAdapter (Cmd.mountServerRun cfg env) = false ∧
      Cmd.hasServing (Cmd.mountServerRun cfg env) = false) ∧
    (env.buildOk = false → Cmd.reachesBuild cfg env = true →
      cfg.callbackAddr ≠ "" → env.callbackDeliveryOk = true →
      Cmd.mountServerRun cfg env =
        [.listenerBound (Cmd.boundAddrOf env), .treeBuildStart,
         .callbackConn (Cmd.sendCallbackLine (Cmd.statusString .error)
           ("could not create filesystem: " ++ env.buildErrMsg)),
         .processExit false]) := by
  refine ⟨buildAfterBindOk_run cfg env, ?_, ?_⟩
  · intro hb
    constructor
    · unfold Cmd.hasAdapter
      rw [List.any_eq_false]
      intro ev hev
      rcases mem_run_fail cfg env ev hb hev with ⟨a, h⟩ | h | ⟨l, h⟩ | h <;>
        subst h <;> simp [Cmd.isAdapterStart]
    · unfold Cmd.hasServing
      rw [List.any_eq_false]
      intro ev hev
      rcases mem_run_fail cfg env ev hb hev with ⟨a, h⟩ | h | ⟨l, h⟩ | h <;>
        subst h <;> simp [Cmd.isServing]
  · intro hb hreach hcb hdel
    obtain ⟨auto, heq⟩ := mountServerRun_eq_build cfg env hreach
    rw [heq]
    unfold Cmd.runFromBuild
    rw [hb, dieWithCallback_eq]
    simp [hcb, hdel]

/-- Witness for C6: with a failing build on the webdav config, the
run binds, starts the build, sends one error callback, and exits. -/
theorem bind_before_build_witness :
    Cmd.mountServerRun Fixtures.cfgWebdav Fixtures.envBuildFail =
      [.listenerBound "127.0.0.1:45001", .treeBuildStart,
       .callbackConn "error=could not create filesystem: not a zip file\n",
       .processExit false] ∧
    Cmd.hasAdapter
      (Cmd.mountServerRun Fixtures.cfgWebdav Fixtures.envBuildFail) =
      false := by
  have h := bind_before_build_and_build_failure_stops
    Fixtures.cfgWebdav Fixtures.envBuildFail
  refine ⟨?_, (h.2.1 rfl).1⟩
  have h3 := h.2.2 rfl (by decide) (by decide) rfl
  rw [h3]
  rfl

/-- Claim C5: with any protocol flag other than nfs and webdav, a run
whose earlier stages succeed reports exactly one error callback naming
the unknown protocol, starts no adapter, never serves, and exits with
failure. -/
theorem unknown_protocol_fails (cfg : Cmd.MsConfig) (env : Cmd.MsEnv)
    (hp1 : cfg.protocol ≠ "nfs") (hp2 : cfg.protocol ≠ "webdav")
    (hreach : Cmd.reachesBuild cfg env = true)
    (hbuild : env.buildOk = true)
    (hcb : cfg.callbackAddr ≠ "")
    (hdel : env.callbackDeliveryOk = true) :
    Cmd.mountServerRun cfg env =
      [.listenerBound (Cmd.boundAddrOf env), .treeBuildStart,
       .treeBuildOk,
       .callbackConn (Cmd.sendCallbackLine (Cmd.statusString .error)
         ("unknown protocol: " ++ cfg.protocol ++
           ". Supported types are nfs and webdav")),
       .processExit false] ∧
    Cmd.countCallbackMsgs (Cmd.mountServerRun cfg env) = 1 ∧
    Cmd.hasAdapter (Cmd.mountServerRun cfg env) = false ∧
    Cmd.hasServing (Cmd.mountServerRun cfg env) = false := by
  obtain ⟨auto, heq⟩ := mountServerRun_eq_build cfg env hreach
  have htr : Cmd.mountServerRun cfg env =
      [.listenerBound (Cmd.boundAddrOf env), .treeBuildStart,
       .treeBuildOk,
       .callbackConn (Cmd.sendCallbackLine (Cmd.statusString .error)
         ("unknown protocol: " ++ cfg.protocol ++
           ". Supported types are nfs and webdav")),
       .processExit false] := by
    rw [heq]
    unfold Cmd.runFromBuild Cmd.runDispatch
    rw [hbuild, if_neg hp1, if_neg hp2, dieWithCallback_eq]
    simp [hcb, hdel]
  refine ⟨htr, ?_, ?_, ?_⟩ <;> rw [htr] <;>
    simp [countCallbackMsgs_cons, countCallbackMsgs_nil,
      Cmd.isCallbackMsg, Cmd.hasAdapter, Cmd.hasServing,
      Cmd.isAdapterStart, Cmd.isServing]

/-- Witness for C5: protocol `smb` with everything else healthy dies
with one error callback and never serves. -/
theorem unknown_protocol_fails_witness :
    Cmd.mountServerRun Fixtures.cfgUnknownProto Fixtures.envAllOk =
      [.listenerBound "127.0.0.1:45001", .treeBuildStart, .treeBuildOk,
       .callbackConn
         "error=unknown protocol: smb. Supported types are nfs and webdav\n",
       .processExit false] ∧
    Cmd.countCallbackMsgs
      (Cmd.mountServerRun Fixtures.cfgUnknownProto Fixtures.envAllOk) =
      1 := by
  have h := unknown_protocol_fails Fixtures.cfgUnknownProto
    Fixtures.envAllOk (by decide) (by decide) (by decide) rfl
    (by decide) rfl
  refine ⟨?_, h.2.1⟩
  rw [h.1]
  rfl

/-- Counterexample to C8 as stated: in the run below (auto-generated
cache directory, successful serving, then a failing cache removal at
shutdown) two callback messages are sent over one server lifetime, not
exactly one. -/
theorem callback_sent_twice_cex :
    Cmd.countCallbackMsgs
      (Cmd.mountServerRun Fixtures.cfgAutoNfs Fixtures.envRemoveFail) =
      2 ∧
    Cmd.countCallbackMsgs
      (Cmd.mountServerRun Fixtures.cfgAutoNfs Fixtures.envRemoveFail) ≠
      1 := by
  constructor <;> decide

/-- Claim C8 amended: every callback delivery writes exactly one line
of the form `STATUS=MESSAGE\n` over a freshly opened and then closed
connection, and a run with a configured, deliverable callback address
sends exactly one message over the server lifetime — except that a
failing removal of the auto-generated cache directory at shutdown, or
a failure of the background adapter serve loop, sends one additional
error message (the serve-failure case is proved here: such a lifetime
carries exactly two messages). -/
theorem callback_protocol_discipline (cfg : Cmd.MsConfig)
    (env : Cmd.MsEnv)
    (hcb : cfg.callbackAddr ≠ "")
    (hdel : env.callbackDeliveryOk = true) :
    ((cfg.cacheDirFlag ≠ "" ∨ env.envCacheDir ≠ "" ∨
        env.removeOk = true) → env.serveOk = true →
      Cmd.countCallbackMsgs (Cmd.mountServerRun cfg env) = 1) ∧
    (env.serveOk = false →
      (cfg.protocol = "nfs" ∨ cfg.protocol = "webdav") →
      Cmd.reachesBuild cfg env = true → env.buildOk = true →
      Cmd.countCallbackMsgs (Cmd.mountServerRun cfg env) = 2) ∧
    (∀ line, Cmd.MsEvent.callbackConn line ∈ Cmd.mountServerRun cfg env →
      ∃ st msg,
        line = Cmd.sendCallbackLine (Cmd.statusString st) msg) := by
  refine ⟨fun hshut hs => countCallbackMsgs_run cfg env hcb hdel hshut hs,
    ?_, fun line h => wfLine_run cfg env line h⟩
  intro hs hproto hreach hbuild
  obtain ⟨auto, heq⟩ := mountServerRun_eq_build cfg env hreach
  rw [heq]
  unfold Cmd.runFromBuild Cmd.runDispatch
  rw [hbuild]
  rcases hproto with hp | hp
  · rw [if_pos hp]
    simp [countCallbackMsgs_cons, Cmd.isCallbackMsg,
      countCallbackMsgs_afterStart_servefail cfg env auto "NFS"
        (Cmd.boundAddrOf env) hcb hdel hs]
  · have hn : ¬ cfg.protocol = "nfs" := by
      rw [hp]; decide
    rw [if_neg hn, if_pos hp]
    simp [countCallbackMsgs_cons, Cmd.isCallbackMsg,
      countCallbackMsgs_afterStart_servefail cfg env auto "WebDav"
        (Cmd.boundAddrOf env) hcb hdel hs]

/-- Witness for C8 amended: the healthy webdav run with a
caller-supplied cache directory sends exactly one callback message,
and the same run with a failing serve loop sends exactly two. -/
theorem callback_protocol_discipline_witness :
    Cmd.countCallbackMsgs
      (Cmd.mountServerRun Fixtures.cfgWebdav Fixtures.envAllOk) = 1 ∧
    Cmd.countCallbackMsgs
      (Cmd.mountServerRun Fixtures.cfgWebdav Fixtures.envServeFail) =
      2 := by
  have h1 := callback_protocol_discipline Fixtures.cfgWebdav
    Fixtures.envAllOk (by decide) rfl
  have h2 := callback_protocol_discipline Fixtures.cfgWebdav
    Fixtures.envServeFail (by decide) rfl
  exact ⟨h1.1 (Or.inl (by decide)) rfl,
    h2.2.1 rfl (Or.inr rfl) (by decide) rfl⟩
